import Mathlib

/-!
Virtual media: Initial state and resource owners.

A shallow embedding of `src/state/initial_state.hpp` (the `InitialState` of the
mount-point state machine, with the D-Bus handlers it registers) and of
`src/resources.cpp` (the destructors of `resource::Process` and
`resource::Gadget`).

Stateful code is written in explicit state-passing style: every operation
returns the ordered trace of the calls it makes on its collaborators (logger,
object server, USB gadget, file system, reactor) together with its result.
Lambdas handed to the object server are defunctionalised: a registration
records a tag, and `readProperty` / `legacyMount` / `proxyMount` / `unmount`
give the body of the lambda behind each tag.
-/

namespace VirtualMedia

/-! ## Data model -/

/-- One `char` of the credential buffer. -/
abbrev Byte := Fin 256

/-- Operating mode of a mount point, `Configuration::Mode`. -/
inductive Configuration.Mode where
  | proxy
  | legacy
  deriving DecidableEq, Repr

/-- Static configuration of a mount point, `Configuration::MountPoint`, with the
fields the code of the Initial state reads. -/
structure Configuration.MountPoint where
  mode : Configuration.Mode
  nbdDevice : String
  endPointId : String
  unixSocket : String
  timeout : Option Int
  remainingInactivityTimeout : Int
  deriving DecidableEq, Repr

/-- Credentials handed over on a legacy mount, `utils::CredentialsProvider`,
built from the two strings the handler moves into it. -/
structure utils.CredentialsProvider where
  user : List Byte
  password : List Byte
  deriving DecidableEq, Repr

/-- Mount target, `interfaces::MountPointStateMachine::Target`: the aggregate is
initialised as `{imgUrl, rw, nullptr, nullptr}`; the two owning pointers are the
mount resource and the credentials. -/
structure Target where
  imgUrl : String
  rw : Bool
  mountPoint : Option Unit
  credentials : Option utils.CredentialsProvider
  deriving DecidableEq, Repr

/-- The part of `interfaces::MountPointStateMachine` the embedded code reads. -/
structure Machine where
  name : String
  config : Configuration.MountPoint
  target : Option Target
  exitCode : Int
  active : Bool
  deriving DecidableEq, Repr

/-- Events of the state machine. `other` stands for any further event type the
catch-all handler template can be instantiated with; it carries its
`eventName`. -/
inductive Event where
  | registerDbus
  | mount (target : Option Target)
  | unmount
  | subprocessStopped
  | other (eventName : String)
  deriving DecidableEq, Repr

/-- Declarations the two source files use but do not contain. -/
structure Decls where
  /-- Whether `LEGACY_MODE_ENABLED` is defined for the build. -/
  legacyModeEnabled : Bool
  /-- Size of the credential buffer, `utils::secretLimit`. -/
  secretLimit : Nat
  /-- The constant `Configuration::MountPoint::defaultTimeout`. -/
  defaultTimeout : Int
  /-- The path `std::filesystem::temp_directory_path() / name` for a mount-point
  name. -/
  localFile : String → String
  /-- The `eventName` member of each event. -/
  eventName : Event → String

/-- Severity of a log line, `Logger::*`. -/
inductive Logger where
  | Debug
  | Info
  | Error
  | Critical
  deriving DecidableEq, Repr

/-- One argument of a `LogMsg` call. -/
inductive LogArg where
  | s (text : String)
  | ec (code : Int)
  deriving DecidableEq, Repr

/-- Gadget state requested from `UsbGadget::configure`, `StateChange`. -/
inductive StateChange where
  | inserted
  | removed
  | notMonitored
  | unknown
  deriving DecidableEq, Repr

/-- A D-Bus error raised by a handler, `sdbusplus::exception::SdBusError`. -/
structure SdBusError where
  errno : Nat
  message : String
  deriving DecidableEq, Repr

/-- The errno value `EPERM`. -/
def EPERM : Nat := 1

/-- The errno value `EINVAL`. -/
def EINVAL : Nat := 22

/-- Property value held by the object server. -/
inductive PropValue where
  | str (v : String)
  | bool (v : Bool)
  | int (v : Int)
  deriving DecidableEq, Repr

/-- The getter lambdas passed to `register_property`; `stored` is the default
getter of a property registered with a value only. -/
inductive Getter where
  | stored
  | active
  | exitCode
  | imageURL
  | writeProtected
  | remainingInactivityTimeout
  deriving DecidableEq, Repr

/-- The setter lambdas passed to `register_property`. -/
inductive Setter where
  | default
  | returnZero
  | throwEPERM (message : String)
  deriving DecidableEq, Repr

/-- The method lambdas passed to `register_method`. -/
inductive Method where
  | unmount
  | legacyMount
  | proxyMount
  deriving DecidableEq, Repr

/-- The lambdas posted to the reactor with `boost::asio::post`. -/
inductive PostedTask where
  | emitSubprocessStopped
  deriving DecidableEq, Repr

/-- The completion lambdas passed to `process->stop`. -/
inductive StopHandler where
  | postSubprocessStopped
  deriving DecidableEq, Repr

/-- A call made on a collaborator, in program order. -/
inductive Effect where
  | log (sev : Logger) (args : List LogArg)
  | isConfigured (name : String)
  | configure (name : String) (nbdDevice : String) (state : StateChange) (rw : Option Bool)
  | fsExists (path : String)
  | umount2 (path : String) (mntForce : Bool)
  | fsRemove (path : String)
  | addInterface (path : String) (iface : String)
  | registerProperty (iface : String) (name : String) (init : PropValue) (setter : Setter)
      (getter : Getter)
  | registerSignal (iface : String) (name : String)
  | registerMethod (iface : String) (name : String) (body : Method)
  | notificationInitialize (path : String) (iface : String) (signal : String)
  | initializeIface (iface : String)
  | emit (ev : Event)
  | stop (onStopped : StopHandler)
  | post (task : PostedTask)
  deriving DecidableEq, Repr

/-- Whether the call hands any event to the state machine. -/
def Effect.isEmit : Effect → Bool
  | .emit _ => true
  | _ => false

/-- Whether the call is a log line of severity `Error` or `Critical`. -/
def Effect.isErrorLog : Effect → Bool
  | .log .Error _ => true
  | .log .Critical _ => true
  | _ => false

/-- Whether the call changes kernel-visible state: a gadget configure, an
unmount or a directory removal. -/
def Effect.isCleanupAction : Effect → Bool
  | .configure _ _ _ _ => true
  | .umount2 _ _ => true
  | .fsRemove _ => true
  | _ => false

/-! ## `getObjectPath` -/

/-- The object path prefix, `InitialState::getObjectPath`. -/
def getObjectPath (machine : Machine) : String :=
  if machine.config.mode = Configuration.Mode.proxy then
    "/xyz/openbmc_project/VirtualMedia/Proxy/"
  else
    "/xyz/openbmc_project/VirtualMedia/Legacy/"

/-- The log line `getObjectPath` writes on entry. -/
def getObjectPathLog : Effect :=
  .log .Debug [.s "getObjectPath entry()"]

/-! ## The legacy `Mount` handler -/

/-- The third argument of the legacy `Mount` method, `std::variant<int, unix_fd>`. -/
inductive optional_fd where
  | int (v : Int)
  | unix_fd (fd : Int)
  deriving DecidableEq, Repr

/-- The indeterminate contents of the freshly declared
`std::array<char, utils::secretLimit> buf`. -/
def freshBuf (d : Decls) (garbage : Nat → Byte) : List Byte :=
  (List.range d.secretLimit).map garbage

/-- A successful `async_read_some(boost::asio::buffer(buf), yield)`: `incoming`
is what the descriptor delivers, of which at most `buf.size()` bytes are stored
at the front of `buf`; returns the new buffer and the number of bytes read. -/
def asyncReadSome (buf : List Byte) (incoming : List Byte) : List Byte × Nat :=
  let size := min incoming.length buf.length
  (incoming.take size ++ buf.drop size, size)

/-- The constructor `std::string(const char*)` applied to a pointer into an array whose
remaining bytes are `mem`: the bytes before the first NUL. It is `none` when
the array holds no NUL from there on, where the C++ reads past the array. -/
def cstring : List Byte → Option (List Byte)
  | [] => none
  | c :: rest => if c = 0 then some [] else (cstring rest).map (fun s => c :: s)

/-- Modelled from the spec: `utils::secureCleanup` is not among the sources; the
spec says the raw buffer "is overwritten with zero bytes". -/
def utils.secureCleanup (buf : List Byte) : List Byte :=
  List.replicate buf.length 0

deriving instance DecidableEq for Except

/-- What a method handler leaves behind: its return value or the error it
throws, the calls it made, and the bytes of its read buffer at the moment it is
left (`none` when the handler declared no buffer). -/
structure MethodCall where
  result : Except SdBusError Bool
  trace : List Effect
  buf : Option (List Byte)
  deriving DecidableEq

/-- The lambda registered as `Mount` in legacy mode (`addServiceInterface`,
`isLegacy` branch). `garbage` is the indeterminate initial content of the
buffer and `incoming` the bytes the descriptor delivers to the single read.
The result is `none` when a string constructor would read past the buffer. -/
def legacyMount (d : Decls) (machine : Machine) (garbage : Nat → Byte)
    (incoming : List Byte) (imgUrl : String) (rw : Bool) (fd : optional_fd) :
    Option MethodCall :=
  let entry : List Effect :=
    [getObjectPathLog,
     .log .Info [.s "[App]: Mount called on ", .s (getObjectPath machine), .s machine.name]]
  let target : Target := ⟨imgUrl, rw, none, none⟩
  match fd with
  | .unix_fd _ =>
    let trace := entry ++ [.log .Debug [.s "[App] Extra data available"]]
    let (buf, size) := asyncReadSome (freshBuf d garbage) incoming
    let nullCount := (buf.take size).count 0
    if nullCount ≠ 2 then
      some ⟨.error ⟨EINVAL, "Malformed extra data"⟩, trace, some buf⟩
    else
      match cstring buf with
      | none => none
      | some user =>
        match cstring (buf.drop (user.length + 1)) with
        | none => none
        | some pass =>
          let target := { target with credentials := some ⟨user, pass⟩ }
          let buf := utils.secureCleanup buf
          some ⟨.ok true, trace ++ [.emit (.mount (some target))], some buf⟩
  | .int _ =>
    some ⟨.ok true, entry ++ [.emit (.mount (some target))], none⟩

/-- The lambda registered as `Mount` in proxy mode. -/
def proxyMount (machine : Machine) : MethodCall :=
  ⟨.ok true,
   [getObjectPathLog,
    .log .Info [.s "[App]: Mount called on ", .s (getObjectPath machine), .s machine.name],
    .emit (.mount none)],
   none⟩

/-- The lambda registered as `Unmount` in both modes. -/
def unmount (machine : Machine) : MethodCall :=
  ⟨.ok true,
   [.log .Info [.s "[App]: Unmount called on ", .s machine.name], .emit .unmount],
   none⟩

/-- The bytes of the read region, as `std::count` in the handler sees them. -/
def readRegion (d : Decls) (garbage : Nat → Byte) (incoming : List Byte) : List Byte :=
  let r := asyncReadSome (freshBuf d garbage) incoming
  r.1.take r.2

/-- The bytes of a region before its first NUL. -/
def bytesBeforeFirstNul (region : List Byte) : List Byte :=
  region.takeWhile (fun c => c != 0)

/-- The bytes of a region strictly between its first and its second NUL. -/
def bytesBetweenFirstTwoNuls (region : List Byte) : List Byte :=
  ((region.dropWhile (fun c => c != 0)).drop 1).takeWhile (fun c => c != 0)

/-! ## Stale-state cleanup -/

/-- Kernel-visible state keyed by the mount-point name: the gadget configuration
entry and the local mount directory. -/
structure Kernel where
  gadgetConfigured : Bool
  mountDirExists : Bool
  deriving DecidableEq, Repr

/-- What the collaborators answer during one run of `cleanUpMountPoint`: the
status of `UsbGadget::configure`, the status of `umount2`, and the return value
and error code of `std::filesystem::remove`. -/
structure Outcomes where
  configureResult : Int
  umountResult : Int
  removeResult : Bool
  removeEc : Int
  deriving DecidableEq, Repr

/-- Modelled from the spec: `UsbGadget::configure` is not among the sources. A
removal that reports success leaves no "gadget configuration entry keyed by
mount-point name"; a "failed cleanup could leave a stale kernel resource", so
a removal that reports failure leaves the entry as it was. -/
def UsbGadget.configureRemoved (k : Kernel) (result : Int) : Kernel :=
  if result = 0 then { k with gadgetConfigured := false } else k

/-- Modelled from the spec: the effect of `std::filesystem::remove` on the
"per-mount-point local mount directory": gone when the call returns true,
still there when it returns false. -/
def fsRemoved (k : Kernel) (result : Bool) : Kernel :=
  if result then { k with mountDirExists := false } else k

/-- The method `InitialState::cleanUpMountPoint`: the kernel state it leaves and the
calls it makes. -/
def InitialState.cleanUpMountPoint (d : Decls) (machine : Machine) (k : Kernel)
    (o : Outcomes) : Kernel × List Effect :=
  let (k1, t1) :=
    if k.gadgetConfigured then
      let result := o.configureResult
      (UsbGadget.configureRemoved k result,
       [Effect.isConfigured machine.name,
        .configure machine.name machine.config.nbdDevice .removed none,
        .log .Info [.s "UsbGadget cleanup"]] ++
       (if result ≠ 0 then
          [.log .Critical
            [.s machine.name, .s "Some serious failure happened! Cleanup failed."]]
        else []))
    else (k, [Effect.isConfigured machine.name])
  let localFile := d.localFile machine.name
  let (k2, t2) :=
    if k1.mountDirExists then
      if 0 = o.umountResult then
        (fsRemoved k1 o.removeResult,
         [Effect.fsExists localFile,
          .umount2 localFile true,
          .log .Info [.s "Cleanup directory ", .s localFile],
          .fsRemove localFile] ++
         (if !o.removeResult then
            [.log .Error
              [.ec o.removeEc, .s "Cleanup failed - unable to remove directory ",
               .s localFile]]
          else []))
      else
        (k1,
         [Effect.fsExists localFile,
          .umount2 localFile true,
          .log .Error [.s "Cleanup failed - unable to unmount directory ", .s localFile]])
    else (k1, [Effect.fsExists localFile])
  (k2, t1 ++ t2)

/-! ## Interface registration -/

/-- The conversion `static_cast<int>` of a 64-bit count. -/
def toInt32 (x : Int) : Int :=
  (x + 2 ^ 31) % 2 ^ 32 - 2 ^ 31

/-- The getter lambdas: the value a property read returns, given the machine at
the time of the read and the value stored for the property. -/
def readProperty (g : Getter) (machine : Machine) (property : PropValue) :
    Except SdBusError PropValue :=
  match g with
  | .stored => .ok property
  | .active => .ok (.bool machine.active)
  | .exitCode => .ok (.int machine.exitCode)
  | .imageURL =>
    match machine.target with
    | some target => .ok (.str target.imgUrl)
    | none => .ok (.str "")
  | .writeProtected =>
    match machine.target with
    | some target => .ok (.bool (!target.rw))
    | none => .ok (.bool true)
  | .remainingInactivityTimeout =>
    .ok (.int (toInt32 machine.config.remainingInactivityTimeout))

/-- Name of the MountPoint interface. -/
def mountPointIface : String := "xyz.openbmc_project.VirtualMedia.MountPoint"

/-- Name of the Process interface. -/
def processIface : String := "xyz.openbmc_project.VirtualMedia.Process"

/-- Name of the per-mode service interface. -/
def serviceIface (isLegacy : Bool) : String :=
  "xyz.openbmc_project.VirtualMedia." ++ (if isLegacy then "Legacy" else "Proxy")

/-- The method `InitialState::addProcessInterface`. -/
def InitialState.addProcessInterface (machine : Machine) : List Effect :=
  [getObjectPathLog,
   .addInterface (getObjectPath machine ++ machine.name) processIface,
   .registerProperty processIface "Active" (.bool false) .returnZero .active,
   .registerProperty processIface "ExitCode" (.int 0) .returnZero .exitCode,
   .initializeIface processIface]

/-- The method `InitialState::addMountPointInterface`. -/
def InitialState.addMountPointInterface (d : Decls) (machine : Machine) : List Effect :=
  [getObjectPathLog,
   .addInterface (getObjectPath machine ++ machine.name) mountPointIface,
   .registerProperty mountPointIface "Device" (.str machine.config.nbdDevice) .default .stored,
   .registerProperty mountPointIface "EndpointId" (.str machine.config.endPointId) .default
     .stored,
   .registerProperty mountPointIface "Socket" (.str machine.config.unixSocket) .default .stored,
   .registerProperty mountPointIface "ImageURL" (.str "")
     (.throwEPERM "Setting ImageURL property is not allowed") .imageURL,
   .registerProperty mountPointIface "WriteProtected" (.bool true) .returnZero .writeProtected,
   .registerProperty mountPointIface "Timeout"
     (.int (machine.config.timeout.getD d.defaultTimeout)) .default .stored,
   .registerProperty mountPointIface "RemainingInactivityTimeout" (.int 0)
     (.throwEPERM "Setting RemainingInactivityTimeout property is not allowed")
     .remainingInactivityTimeout,
   .initializeIface mountPointIface]

/-- The method `InitialState::addServiceInterface`. -/
def InitialState.addServiceInterface (machine : Machine) (isLegacy : Bool) : List Effect :=
  let name := serviceIface isLegacy
  let path := getObjectPath machine ++ machine.name
  [getObjectPathLog,
   .addInterface path name,
   .registerSignal name "Completion",
   .notificationInitialize path name "Completion",
   .registerMethod name "Unmount" .unmount,
   .registerMethod name "Mount" (if isLegacy then .legacyMount else .proxyMount),
   .initializeIface name]

/-! ## Event handling in the Initial state -/

/-- The value of `std::errc::invalid_argument`. -/
def errc.invalid_argument : Nat := EINVAL

/-- The lifecycle states a handler can return; `ReadyState` carries the error
passed to its three-argument constructor, if that one was used. -/
inductive BasicState where
  | InitialState
  | ReadyState (error : Option (Nat × String))
  | ActiveState
  deriving DecidableEq, Repr

/-- Result of `handleEvent`: the returned state (`none` for `nullptr`), the calls
made, and the kernel-visible state left behind. -/
structure Handled where
  next : Option BasicState
  trace : List Effect
  kernel : Kernel
  deriving DecidableEq, Repr

/-- Both overloads of `InitialState::handleEvent`: the one for
`RegisterDbusEvent` and the catch-all template. -/
def InitialState.handleEvent (d : Decls) (machine : Machine) (k : Kernel) (o : Outcomes)
    (event : Event) : Handled :=
  match event with
  | .registerDbus =>
    let isLegacy : Bool := machine.config.mode = Configuration.Mode.legacy
    if !d.legacyModeEnabled && isLegacy then
      ⟨some (.ReadyState (some (errc.invalid_argument, "Legacy mode is not supported"))), [], k⟩
    else
      let (k1, t1) :=
        if isLegacy then InitialState.cleanUpMountPoint d machine k o else (k, [])
      ⟨some (.ReadyState none),
       t1 ++ InitialState.addMountPointInterface d machine ++
         InitialState.addProcessInterface machine ++
         InitialState.addServiceInterface machine isLegacy,
       k1⟩
  | ev => ⟨none, [.log .Error [.s "Invalid event: ", .s (d.eventName ev)]], k⟩

/-! ## Resource owners (`resources.cpp`) -/

/-- The owner `resource::Process`: whether its process was spawned. -/
structure resource.Process where
  spawned : Bool
  deriving DecidableEq, Repr

/-- The destructor `resource::Process::~Process`. -/
def resource.Process.destroy (p : resource.Process) : List Effect :=
  if p.spawned then [.stop .postSubprocessStopped] else []

/-- Body of a completion lambda passed to `process->stop`. -/
def StopHandler.run : StopHandler → List Effect
  | .postSubprocessStopped => [.post .emitSubprocessStopped]

/-- Body of a lambda posted to the reactor. -/
def PostedTask.run : PostedTask → List Effect
  | .emitSubprocessStopped => [.emit .subprocessStopped]

/-- The reactor side of a mount point: stop requests in flight, tasks queued on
the `io_context`, and the events delivered to the state machine so far. -/
structure Reactor where
  stopping : List StopHandler
  queue : List PostedTask
  delivered : List Event
  deriving DecidableEq, Repr

/-- Carry out the reactor-relevant calls of a trace, in order. -/
def Reactor.perform (r : Reactor) : List Effect → Reactor
  | [] => r
  | .stop h :: rest => Reactor.perform { r with stopping := r.stopping ++ [h] } rest
  | .post t :: rest => Reactor.perform { r with queue := r.queue ++ [t] } rest
  | .emit ev :: rest => Reactor.perform { r with delivered := r.delivered ++ [ev] } rest
  | _ :: rest => Reactor.perform r rest

/-- The oldest stop request in flight completes: its completion lambda runs. -/
def Reactor.stopCompletes (r : Reactor) : Reactor :=
  match r.stopping with
  | [] => r
  | h :: rest => Reactor.perform { r with stopping := rest } h.run

/-- The reactor runs the oldest queued task. -/
def Reactor.poll (r : Reactor) : Reactor :=
  match r.queue with
  | [] => r
  | t :: rest => Reactor.perform { r with queue := rest } t.run

/-- The owner `resource::Gadget`: its machine and the status its constructor
stored. -/
structure resource.Gadget where
  machine : Machine
  status : Int
  deriving DecidableEq, Repr

/-- The constructor `resource::Gadget::Gadget`; `configureResult` is what
`UsbGadget::configure` returns to it. -/
def resource.Gadget.create (machine : Machine) (devState : StateChange)
    (configureResult : Int) : resource.Gadget × List Effect :=
  (⟨machine, configureResult⟩,
   [.configure machine.name machine.config.nbdDevice devState
      (some (match machine.target with
             | some target => target.rw
             | none => false))])

/-- The destructor `resource::Gadget::~Gadget`; `configureResult` is what
`UsbGadget::configure` returns to it. The first component is the error that
leaves the destructor, if any. -/
def resource.Gadget.destroy (g : resource.Gadget) (_configureResult : Int) :
    Except Int Unit × List Effect :=
  (.ok (), [.configure g.machine.name g.machine.config.nbdDevice .removed none])


/-- The bytes of a region after its first NUL. -/
def afterFirstNul (region : List Byte) : List Byte :=
  (region.dropWhile (fun c => c != 0)).drop 1

/-- The part of the buffer the read leaves untouched. -/
def unreadTail (d : Decls) (garbage : Nat → Byte) (incoming : List Byte) : List Byte :=
  (freshBuf d garbage).drop (min incoming.length d.secretLimit)

/-- The calls the legacy `Mount` handler makes before it reads the descriptor. -/
def fdEntryTrace (machine : Machine) : List Effect :=
  [getObjectPathLog,
   .log .Info [.s "[App]: Mount called on ", .s (getObjectPath machine), .s machine.name],
   .log .Debug [.s "[App] Extra data available"]]

/-! ## Concrete inputs -/

/-- A build with legacy support and a 1024-byte credential buffer. -/
def exDecls : Decls :=
  ⟨true, 1024, 30, fun name => "/tmp/" ++ name, fun _ => "Event"⟩

/-- The same build without legacy support. -/
def exDeclsNoLegacy : Decls :=
  { exDecls with legacyModeEnabled := false }

/-- A legacy mount point with no target. -/
def exMachine : Machine :=
  ⟨"Slot_2", ⟨.legacy, "/dev/nbd2", "", "/run/virtual-media/nbd2.sock", none, 0⟩, none, 0,
   false⟩

/-- A proxy mount point with no target. -/
def exProxyMachine : Machine :=
  ⟨"Slot_0", ⟨.proxy, "/dev/nbd0", "/nbd/0", "/run/virtual-media/nbd0.sock", some 30, 0⟩, none,
   0, false⟩

/-- Indeterminate buffer content used in the examples: every byte is 0xAA. -/
def exGarbage : Nat → Byte := fun _ => 170

/-- The bytes of `"alice\0secret\0"`. -/
def alicePayload : List Byte := [97, 108, 105, 99, 101, 0, 115, 101, 99, 114, 101, 116, 0]

/-- The bytes of `"alice"`. -/
def aliceBytes : List Byte := [97, 108, 105, 99, 101]

/-- The bytes of `"secret"`. -/
def secretBytes : List Byte := [115, 101, 99, 114, 101, 116]

/-- The bytes of `"aliceXsecret"`, a payload without NUL. -/
def aliceXsecret : List Byte := [97, 108, 105, 99, 101, 88, 115, 101, 99, 114, 101, 116]

/-- A kernel state with a stale mount directory and no gadget entry. -/
def exStaleDir : Kernel := ⟨false, true⟩

/-- A kernel state with both a stale gadget entry and a stale mount directory. -/
def exStaleBoth : Kernel := ⟨true, true⟩

/-- Every cleanup step succeeds. -/
def exAllSucceed : Outcomes := ⟨0, 0, true, 0⟩

/-- Every cleanup step fails: `configure` and `umount2` return -1, and
`std::filesystem::remove` returns false with error code 16. -/
def exAllFail : Outcomes := ⟨-1, -1, false, 16⟩

/-- The reactor with nothing in flight. -/
def Reactor.idle : Reactor := ⟨[], [], []⟩

/-! ## Lemmas on NUL-delimited regions -/

theorem cstring_append_of_mem (region tail : List Byte) (h : (0 : Byte) ∈ region) :
    cstring (region ++ tail) = some (bytesBeforeFirstNul region) := by
  induction region with
  | nil => simp at h
  | cons c rest ih =>
    by_cases hc : c = 0
    · simp [cstring, bytesBeforeFirstNul, hc]
    · have hmem : (0 : Byte) ∈ rest := by
        rcases List.mem_cons.mp h with h0 | h0
        · exact absurd h0.symm hc
        · exact h0
      simp [cstring, bytesBeforeFirstNul, hc, ih hmem] at *

theorem not_mem_bytesBeforeFirstNul (region : List Byte) :
    (0 : Byte) ∉ bytesBeforeFirstNul region := by
  induction region with
  | nil => simp [bytesBeforeFirstNul]
  | cons c rest ih =>
    by_cases hc : c = 0
    · simp [bytesBeforeFirstNul, hc]
    · simp only [bytesBeforeFirstNul] at ih ⊢
      rw [List.takeWhile_cons_of_pos (by simpa using hc)]
      intro hmem
      rcases List.mem_cons.mp hmem with h0 | h0
      · exact hc h0.symm
      · exact ih h0

theorem split_at_first_nul (region : List Byte) (h : (0 : Byte) ∈ region) :
    region = bytesBeforeFirstNul region ++ 0 :: afterFirstNul region := by
  induction region with
  | nil => simp at h
  | cons c rest ih =>
    by_cases hc : c = 0
    · simp [bytesBeforeFirstNul, afterFirstNul, hc]
    · have hmem : (0 : Byte) ∈ rest := by
        rcases List.mem_cons.mp h with h0 | h0
        · exact absurd h0.symm hc
        · exact h0
      have ih1 := ih hmem
      simp only [bytesBeforeFirstNul, afterFirstNul] at ih1 ⊢
      rw [List.takeWhile_cons_of_pos (by simpa using hc),
        List.dropWhile_cons_of_pos (by simpa using hc)]
      simpa using ih1

theorem count_afterFirstNul (region : List Byte) (h : (0 : Byte) ∈ region) :
    region.count 0 = (afterFirstNul region).count 0 + 1 := by
  have hs := split_at_first_nul region h
  have h0 : (bytesBeforeFirstNul region).count 0 = 0 :=
    List.count_eq_zero.mpr (not_mem_bytesBeforeFirstNul region)
  calc region.count 0
      = (bytesBeforeFirstNul region ++ 0 :: afterFirstNul region).count 0 := by rw [← hs]
    _ = (afterFirstNul region).count 0 + 1 := by
        rw [List.count_append, h0, List.count_cons_self, Nat.zero_add]

theorem bytesBetween_eq (region : List Byte) :
    bytesBetweenFirstTwoNuls region = bytesBeforeFirstNul (afterFirstNul region) := rfl

/-- A region with exactly two NULs is `user ++ NUL :: password ++ NUL :: rest`
with no NUL in any of the three parts. -/
theorem split_two_nuls (region : List Byte) (h : region.count 0 = 2) :
    (0 : Byte) ∈ region ∧ (0 : Byte) ∈ afterFirstNul region ∧
    ∃ rest, (0 : Byte) ∉ rest ∧
      region = bytesBeforeFirstNul region ++
        0 :: (bytesBetweenFirstTwoNuls region ++ 0 :: rest) := by
  have hm : (0 : Byte) ∈ region := List.count_pos_iff.mp (by omega)
  have hc := count_afterFirstNul region hm
  have hm2 : (0 : Byte) ∈ afterFirstNul region := List.count_pos_iff.mp (by omega)
  have hc2 := count_afterFirstNul (afterFirstNul region) hm2
  refine ⟨hm, hm2, afterFirstNul (afterFirstNul region), ?_, ?_⟩
  · exact List.count_eq_zero.mp (by omega)
  · rw [bytesBetween_eq, ← split_at_first_nul _ hm2]
    exact split_at_first_nul region hm

/-! ## The read buffer -/

theorem freshBuf_length (d : Decls) (garbage : Nat → Byte) :
    (freshBuf d garbage).length = d.secretLimit := by
  simp [freshBuf]

theorem readRegion_eq (d : Decls) (garbage : Nat → Byte) (incoming : List Byte) :
    readRegion d garbage incoming = incoming.take d.secretLimit := by
  simp only [readRegion, asyncReadSome, freshBuf_length]
  rw [List.take_append_of_le_length (by simp)]
  rw [List.take_take]
  rcases Nat.le_total incoming.length d.secretLimit with h | h
  · rw [Nat.min_eq_left h, Nat.min_self, List.take_of_length_le (Nat.le_refl _),
      List.take_of_length_le h]
  · rw [Nat.min_eq_right h, Nat.min_self]

theorem asyncReadSome_fst (d : Decls) (garbage : Nat → Byte) (incoming : List Byte) :
    (asyncReadSome (freshBuf d garbage) incoming).1 =
      readRegion d garbage incoming ++ unreadTail d garbage incoming := by
  simp only [readRegion, asyncReadSome, freshBuf_length, unreadTail]
  rw [List.take_append_of_le_length (by simp), List.take_take, Nat.min_self]

theorem asyncReadSome_length (d : Decls) (garbage : Nat → Byte) (incoming : List Byte) :
    (asyncReadSome (freshBuf d garbage) incoming).1.length = d.secretLimit := by
  simp only [asyncReadSome, freshBuf_length, List.length_append, List.length_take,
    List.length_drop]
  omega

theorem drop_past_first_nul (region tail : List Byte) (h : (0 : Byte) ∈ region) :
    (region ++ tail).drop ((bytesBeforeFirstNul region).length + 1) =
      afterFirstNul region ++ tail := by
  have hs := split_at_first_nul region h
  generalize bytesBeforeFirstNul region = u at hs ⊢
  generalize afterFirstNul region = a at hs ⊢
  subst hs
  simp

/-- The legacy `Mount` handler on a supplied descriptor, in closed form. -/
theorem legacyMount_unix_fd (d : Decls) (machine : Machine) (garbage : Nat → Byte)
    (incoming : List Byte) (imgUrl : String) (rw : Bool) (fd : Int) :
    legacyMount d machine garbage incoming imgUrl rw (.unix_fd fd) =
      some (if (readRegion d garbage incoming).count 0 = 2 then
          ⟨.ok true,
           fdEntryTrace machine ++
             [.emit (.mount (some ⟨imgUrl, rw, none,
               some ⟨bytesBeforeFirstNul (readRegion d garbage incoming),
                     bytesBetweenFirstTwoNuls (readRegion d garbage incoming)⟩⟩))],
           some (List.replicate d.secretLimit 0)⟩
        else
          ⟨.error ⟨EINVAL, "Malformed extra data"⟩, fdEntryTrace machine,
           some (readRegion d garbage incoming ++ unreadTail d garbage incoming)⟩) := by
  have hbuf := asyncReadSome_fst d garbage incoming
  have hlen := asyncReadSome_length d garbage incoming
  have hreg : (asyncReadSome (freshBuf d garbage) incoming).1.take
      (asyncReadSome (freshBuf d garbage) incoming).2 = readRegion d garbage incoming := rfl
  by_cases hc : (readRegion d garbage incoming).count 0 = 2
  · obtain ⟨hm, hm2, rest, -, hsplit⟩ := split_two_nuls _ hc
    have huser := cstring_append_of_mem _ (unreadTail d garbage incoming) hm
    have hdrop := drop_past_first_nul _ (unreadTail d garbage incoming) hm
    have hpass := cstring_append_of_mem _ (unreadTail d garbage incoming) hm2
    have hlen2 : (readRegion d garbage incoming ++ unreadTail d garbage incoming).length =
        d.secretLimit := by rw [← hbuf]; exact hlen
    simp only [legacyMount]
    rw [hreg]
    simp only [hc, hbuf, huser, hdrop, hpass, ne_eq, not_true_eq_false, if_false, if_true,
      utils.secureCleanup, hlen2, bytesBetween_eq, fdEntryTrace]
    rfl
  · simp only [legacyMount]
    rw [hreg]
    simp only [hc, hbuf, ne_eq, not_false_eq_true, if_true, if_false, fdEntryTrace]
    rfl

/-! ## The legacy `Mount` handler: claims -/

/-- C2: in the legacy Mount method, whenever the read region holds exactly two
NUL bytes, the handler returns true and the only event it emits is Mount with
a target whose credentials are: user = the bytes of the read data before the
first NUL, password = the bytes strictly between the first and the second NUL.
Both are computed from the bytes delivered by the read alone (cut at the buffer
size), so they do not depend on the unread remainder of the buffer, and the
read data splits as user, NUL, password, NUL, rest with no NUL in any part. -/
theorem legacyMount_credentials (d : Decls) (machine : Machine) (garbage : Nat → Byte)
    (incoming : List Byte) (imgUrl : String) (rw : Bool) (fd : Int)
    (h : (readRegion d garbage incoming).count 0 = 2) :
    ∃ r, legacyMount d machine garbage incoming imgUrl rw (.unix_fd fd) = some r ∧
      r.result = .ok true ∧
      r.trace.filter Effect.isEmit =
        [.emit (.mount (some ⟨imgUrl, rw, none,
          some ⟨bytesBeforeFirstNul (incoming.take d.secretLimit),
                bytesBetweenFirstTwoNuls (incoming.take d.secretLimit)⟩⟩))] ∧
      readRegion d garbage incoming = incoming.take d.secretLimit ∧
      (0 : Byte) ∉ bytesBeforeFirstNul (incoming.take d.secretLimit) ∧
      (0 : Byte) ∉ bytesBetweenFirstTwoNuls (incoming.take d.secretLimit) ∧
      ∃ rest, (0 : Byte) ∉ rest ∧
        incoming.take d.secretLimit =
          bytesBeforeFirstNul (incoming.take d.secretLimit) ++
            0 :: (bytesBetweenFirstTwoNuls (incoming.take d.secretLimit) ++ 0 :: rest) := by
  rw [legacyMount_unix_fd, if_pos h]
  have he := readRegion_eq d garbage incoming
  rw [he] at h ⊢
  obtain ⟨-, -, rest, hrest, hsplit⟩ := split_two_nuls _ h
  refine ⟨_, rfl, rfl, ?_, rfl, not_mem_bytesBeforeFirstNul _, ?_, rest, hrest, hsplit⟩
  · simp [fdEntryTrace, getObjectPathLog, Effect.isEmit]
  · rw [bytesBetween_eq]
    exact not_mem_bytesBeforeFirstNul _

set_option maxRecDepth 100000 in
/-- C2 at the payload "alice\0secret\0": the capsule holds user "alice" and
password "secret". -/
theorem legacyMount_credentials_alice :
    (readRegion exDecls exGarbage alicePayload).count 0 = 2 ∧
    ∃ r, legacyMount exDecls exMachine exGarbage alicePayload "smb://host/image.iso" false
        (.unix_fd 7) = some r ∧
      r.result = .ok true ∧
      r.trace.filter Effect.isEmit =
        [.emit (.mount (some ⟨"smb://host/image.iso", false, none,
          some ⟨aliceBytes, secretBytes⟩⟩))] := by
  refine ⟨by decide, ?_⟩
  obtain ⟨r, h1, h2, h3, -⟩ :=
    legacyMount_credentials exDecls exMachine exGarbage alicePayload "smb://host/image.iso"
      false 7 (by decide)
  exact ⟨r, h1, h2, h3.trans (by decide)⟩

set_option maxRecDepth 100000 in
/-- C3 fails on the error path: on the 12-byte payload "aliceXsecret" (no NUL)
the handler throws EINVAL and leaves its buffer as the read filled it, the
payload still in its first 12 bytes, so the buffer is not all zero. -/
theorem legacyMount_malformed_buffer_not_zeroed :
    ∃ r, legacyMount exDecls exMachine exGarbage aliceXsecret "smb://host/image.iso" false
        (.unix_fd 7) = some r ∧
      r.result = .error ⟨EINVAL, "Malformed extra data"⟩ ∧
      r.buf = some (aliceXsecret ++ List.replicate 1012 170) ∧
      r.buf ≠ some (List.replicate exDecls.secretLimit 0) := by
  refine ⟨_, rfl, by decide, by decide, by decide⟩

/-! ## Event handling in the Initial state: claims -/

/-- C4: in a build without legacy support, for every mount point whose mode is
legacy, RegisterDbus in the Initial state returns the Ready state constructed
with error code invalid_argument and message "Legacy mode is not supported",
and the handler makes no call at all before that: no cleanup, no registration
of any interface or method, and the kernel-visible state is untouched. -/
theorem registerDbus_legacy_unsupported (d : Decls) (machine : Machine) (k : Kernel)
    (o : Outcomes) (hbuild : d.legacyModeEnabled = false)
    (hmode : machine.config.mode = Configuration.Mode.legacy) :
    InitialState.handleEvent d machine k o .registerDbus =
      ⟨some (.ReadyState (some (errc.invalid_argument, "Legacy mode is not supported"))),
       [], k⟩ := by
  simp [InitialState.handleEvent, hbuild, hmode]

/-- C4 at a legacy mount point with stale kernel state, in a build without
legacy support. -/
theorem registerDbus_legacy_unsupported_example :
    exDeclsNoLegacy.legacyModeEnabled = false ∧
    exMachine.config.mode = Configuration.Mode.legacy ∧
    InitialState.handleEvent exDeclsNoLegacy exMachine exStaleBoth exAllSucceed .registerDbus =
      ⟨some (.ReadyState (some (errc.invalid_argument, "Legacy mode is not supported"))),
       [], exStaleBoth⟩ :=
  ⟨rfl, rfl,
   registerDbus_legacy_unsupported exDeclsNoLegacy exMachine exStaleBoth exAllSucceed rfl rfl⟩

/-- C6: every event other than RegisterDbus is rejected in the Initial state:
the handler returns no next state, its only call is one Error log line naming
the event, and the kernel-visible state is untouched. -/
theorem other_event_rejected (d : Decls) (machine : Machine) (k : Kernel) (o : Outcomes)
    (event : Event) (h : event ≠ .registerDbus) :
    InitialState.handleEvent d machine k o event =
      ⟨none, [.log .Error [.s "Invalid event: ", .s (d.eventName event)]], k⟩ := by
  cases event <;> simp [InitialState.handleEvent] at h ⊢

/-- C6 at a Mount event carrying a target. -/
theorem other_event_rejected_mount :
    Event.mount (some ⟨"smb://host/image.iso", true, none, none⟩) ≠ Event.registerDbus ∧
    InitialState.handleEvent exDecls exMachine exStaleBoth exAllSucceed
        (.mount (some ⟨"smb://host/image.iso", true, none, none⟩)) =
      ⟨none, [.log .Error [.s "Invalid event: ", .s "Event"]], exStaleBoth⟩ :=
  ⟨by decide,
   other_event_rejected exDecls exMachine exStaleBoth exAllSucceed _ (by decide)⟩

/-- C7: the getters registered for ImageURL and WriteProtected on the
MountPoint interface return, for every machine and every stored value,
ImageURL = the image URL of the target if a target exists and the empty string
otherwise, and WriteProtected = a boolean that is false iff a target exists
and is read-write; neither result mentions the stored value and both reads
succeed. -/
theorem property_reads (d : Decls) (machine : Machine) (stored : PropValue) :
    Effect.registerProperty mountPointIface "ImageURL" (.str "")
        (.throwEPERM "Setting ImageURL property is not allowed") .imageURL ∈
      InitialState.addMountPointInterface d machine ∧
    Effect.registerProperty mountPointIface "WriteProtected" (.bool true) .returnZero
        .writeProtected ∈
      InitialState.addMountPointInterface d machine ∧
    readProperty .imageURL machine stored =
      .ok (.str (match machine.target with
                 | some target => target.imgUrl
                 | none => "")) ∧
    ∃ b, readProperty .writeProtected machine stored = .ok (.bool b) ∧
      (b = false ↔ ∃ target, machine.target = some target ∧ target.rw = true) ∧
      (machine.target = none → b = true) := by
  refine ⟨by simp [InitialState.addMountPointInterface],
    by simp [InitialState.addMountPointInterface], ?_, ?_⟩
  · cases ht : machine.target <;> simp [readProperty, ht]
  · cases ht : machine.target with
    | none => exact ⟨true, by simp [readProperty, ht], by simp, fun _ => rfl⟩
    | some target =>
      refine ⟨!target.rw, by simp [readProperty, ht], ?_, by simp⟩
      simp [ht]

/-! ## Resource owners: claims -/

/-- C8: whatever status the configure call of the constructor returned and
whatever the configure call of the destructor returns, destroying a gadget owner makes
exactly one call, `configure(name, nbdDevice, removed)` for the owning
machine, and no error leaves the destructor. -/
theorem gadget_destroy_removes_once (machine : Machine) (devState : StateChange)
    (ctorResult dtorResult : Int) :
    (resource.Gadget.create machine devState ctorResult).1.status = ctorResult ∧
    (resource.Gadget.create machine devState ctorResult).1.destroy dtorResult =
      (.ok (), [.configure machine.name machine.config.nbdDevice .removed none]) := by
  exact ⟨rfl, rfl⟩

/-- C9: destroying a process owner issues one stop request iff the process was
spawned and delivers nothing inline; when the stop completes, its completion
lambda delivers nothing either but queues one task on the reactor; the reactor
running that task delivers exactly one SubprocessStopped event, after which
nothing is in flight. An owner that was not spawned issues no stop and no event
is ever delivered. -/
theorem process_destroy_stops_and_posts (p : resource.Process) :
    p.destroy = (if p.spawned then [.stop .postSubprocessStopped] else []) ∧
    p.destroy.countP Effect.isEmit = 0 ∧
    (Reactor.idle.perform p.destroy).stopping.length = (if p.spawned then 1 else 0) ∧
    (Reactor.idle.perform p.destroy).queue = [] ∧
    (Reactor.idle.perform p.destroy).delivered = [] ∧
    (Reactor.idle.perform p.destroy).stopCompletes.stopping = [] ∧
    (Reactor.idle.perform p.destroy).stopCompletes.queue.length =
      (if p.spawned then 1 else 0) ∧
    (Reactor.idle.perform p.destroy).stopCompletes.delivered = [] ∧
    (Reactor.idle.perform p.destroy).stopCompletes.poll =
      ⟨[], [], if p.spawned then [.subprocessStopped] else []⟩ := by
  rcases p with ⟨spawned⟩
  cases spawned <;> decide

/-! ## Stale-state cleanup: claims -/

/-- C10 as stated fails: with a stale mount directory whose force-unmount fails,
the first cleanup leaves the directory in place, and the second run in a row
finds it again, issues another unmount and logs another error. -/
theorem cleanUp_twice_not_clean :
    (InitialState.cleanUpMountPoint exDecls exMachine exStaleDir exAllFail).1 = exStaleDir ∧
    (InitialState.cleanUpMountPoint exDecls exMachine
      (InitialState.cleanUpMountPoint exDecls exMachine exStaleDir exAllFail).1 exAllFail) =
      (exStaleDir,
       [.isConfigured "Slot_2", .fsExists "/tmp/Slot_2", .umount2 "/tmp/Slot_2" true,
        .log .Error [.s "Cleanup failed - unable to unmount directory ", .s "/tmp/Slot_2"]]) ∧
    ¬ ((InitialState.cleanUpMountPoint exDecls exMachine
          (InitialState.cleanUpMountPoint exDecls exMachine exStaleDir exAllFail).1
          exAllFail).1 = ⟨false, false⟩ ∧
       (InitialState.cleanUpMountPoint exDecls exMachine
          (InitialState.cleanUpMountPoint exDecls exMachine exStaleDir exAllFail).1
          exAllFail).2.countP Effect.isErrorLog = 0 ∧
       (InitialState.cleanUpMountPoint exDecls exMachine
          (InitialState.cleanUpMountPoint exDecls exMachine exStaleDir exAllFail).1
          exAllFail).2.countP Effect.isCleanupAction = 0) := by
  decide

/-- C10 amended: when every step the first cleanup attempts succeeds (gadget
removal returns 0 if a gadget entry exists; force-unmount returns 0 and
directory removal returns true if the directory exists), the first run leaves
no gadget entry and no mount directory, and a second run in a row, whatever its
collaborators would answer, leaves that same state, makes only the two
existence queries, logs no error and issues no gadget removal, unmount or
directory removal. -/
theorem cleanUp_idempotent_after_success (d : Decls) (machine : Machine) (k : Kernel)
    (o1 o2 : Outcomes)
    (hg : k.gadgetConfigured = true → o1.configureResult = 0)
    (hd : k.mountDirExists = true → o1.umountResult = 0 ∧ o1.removeResult = true) :
    (InitialState.cleanUpMountPoint d machine k o1).1 = ⟨false, false⟩ ∧
    (InitialState.cleanUpMountPoint d machine k o1).2.countP Effect.isErrorLog = 0 ∧
    InitialState.cleanUpMountPoint d machine
        (InitialState.cleanUpMountPoint d machine k o1).1 o2 =
      ((InitialState.cleanUpMountPoint d machine k o1).1,
       [.isConfigured machine.name, .fsExists (d.localFile machine.name)]) ∧
    (InitialState.cleanUpMountPoint d machine
        (InitialState.cleanUpMountPoint d machine k o1).1 o2).2.countP
      Effect.isErrorLog = 0 ∧
    (InitialState.cleanUpMountPoint d machine
        (InitialState.cleanUpMountPoint d machine k o1).1 o2).2.countP
      Effect.isCleanupAction = 0 := by
  have h1 : (InitialState.cleanUpMountPoint d machine k o1).1 = ⟨false, false⟩ ∧
      (InitialState.cleanUpMountPoint d machine k o1).2.countP Effect.isErrorLog = 0 := by
    rcases k with ⟨g, m⟩
    cases g <;> cases m <;>
      simp_all [InitialState.cleanUpMountPoint, UsbGadget.configureRemoved, fsRemoved,
        Effect.isErrorLog]
  refine ⟨h1.1, h1.2, ?_⟩
  rw [h1.1]
  simp [InitialState.cleanUpMountPoint, Effect.isErrorLog, Effect.isCleanupAction]

/-- C10 amended, at a kernel state with a stale gadget entry and a stale
directory where every step of the first run succeeds; the second run is given
failing collaborators and still does nothing. -/
theorem cleanUp_idempotent_after_success_example :
    (exStaleBoth.gadgetConfigured = true → exAllSucceed.configureResult = 0) ∧
    (exStaleBoth.mountDirExists = true →
      exAllSucceed.umountResult = 0 ∧ exAllSucceed.removeResult = true) ∧
    InitialState.cleanUpMountPoint exDecls exMachine
        (InitialState.cleanUpMountPoint exDecls exMachine exStaleBoth exAllSucceed).1
        exAllFail =
      (⟨false, false⟩, [.isConfigured "Slot_2", .fsExists "/tmp/Slot_2"]) := by
  have h := cleanUp_idempotent_after_success exDecls exMachine exStaleBoth exAllSucceed
    exAllFail (fun _ => rfl) (fun _ => ⟨rfl, rfl⟩)
  exact ⟨fun _ => rfl, fun _ => ⟨rfl, rfl⟩, by rw [h.2.2.1, h.1]; decide⟩

end VirtualMedia
